import Mathlib

/-!
Shallow embedding of the VisionMate capture → processing → feedback pipeline
(`src/src/components/VisionMate.tsx`).  The source file contains two
revisions of the same component; we embed both:

* `V1` — the revision whose simulator is `simulateAdvancedDetection`
  (pixel-coordinate bounding boxes, counted summary text);
* `V2` — the revision whose simulator is `simulateAdvancedProcessing`
  (percentage bounding boxes, staged progress, canvas overlay).

`Math.random()` is modelled by an explicit stream of rationals in `[0, 1)`
consumed left to right, JavaScript `Math.floor` / `Math.round` by `Int.floor`
based functions, and JavaScript strings by Lean `String`.
-/

/-- A stream of pseudo-random draws; each call to `Math.random()` consumes
the head.  An exhausted stream yields `0`, which is a legal draw. -/
abbrev RandStream := List ℚ

/-- Every draw a valid stream can produce lies in `[0, 1)`. -/
def ValidStream (s : RandStream) : Prop := ∀ q ∈ s, 0 ≤ q ∧ q < 1

/-- One `Math.random()` call: take the head draw and the remaining stream. -/
def takeRand (s : RandStream) : ℚ × RandStream := (s.headD 0, s.tail)

/-- JavaScript `Math.round`: round half toward positive infinity. -/
def jsRound (q : ℚ) : ℤ := ⌊q + 1/2⌋

/-- JavaScript `Number.prototype.toFixed(1)` for the non-negative numbers the
component formats: round to one decimal digit and print `int.frac`. -/
def toFixed1 (q : ℚ) : String :=
  let n : ℤ := jsRound (q * 10)
  toString (n / 10) ++ "." ++ toString (n % 10)

namespace V1

/-- The fixed object-category enumeration of the first revision. -/
inductive ObjType where
  | car | bike | pedestrian | traffic_light | zebra_crossing | bus | truck | motorcycle
  deriving DecidableEq, Repr

/-- Pixel `bbox` of a `DetectedObject` (pixel coordinates in this revision). -/
structure BBox where
  x : ℚ
  y : ℚ
  width : ℚ
  height : ℚ
  deriving DecidableEq, Repr

structure DetectedObject where
  id : String
  type : ObjType
  confidence : ℚ
  bbox : BBox
  position : String
  deriving DecidableEq, Repr

structure ProcessingResult where
  processed_video_url : String
  audio_feedback_url : String
  description_text : String
  detected_objects : List DetectedObject
  confidence_score : ℚ
  deriving DecidableEq, Repr

/-- Array `objectTypes` of `simulateAdvancedDetection`. -/
def objectTypes : List ObjType :=
  [.car, .bike, .pedestrian, .traffic_light, .zebra_crossing, .bus, .truck, .motorcycle]

/-- Array `positions` of `simulateAdvancedDetection`. -/
def positions : List String :=
  ["left side", "right side", "center", "far left", "far right", "approaching", "distant"]

/-- One iteration of the generation loop in `simulateAdvancedDetection`:
draws type, confidence and position, then the four bbox coordinates, in the
order the JavaScript expressions evaluate. -/
def genObject (i : ℕ) (s : RandStream) : DetectedObject × RandStream :=
  let (q1, s) := takeRand s
  let objectType := objectTypes.getD (⌊q1 * 8⌋).toNat .car
  let (q2, s) := takeRand s
  let confidence : ℚ := q2 * (3/10) + 7/10
  let (q3, s) := takeRand s
  let position := positions.getD (⌊q3 * 7⌋).toNat ("left side")
  let (q4, s) := takeRand s
  let (q5, s) := takeRand s
  let (q6, s) := takeRand s
  let (q7, s) := takeRand s
  (⟨"obj_" ++ toString i, objectType, (jsRound (confidence * 100) : ℚ) / 100,
    ⟨((⌊q4 * 400⌋ : ℤ) : ℚ), ((⌊q5 * 300⌋ : ℤ) : ℚ),
     ((⌊q6 * 100⌋ : ℤ) : ℚ) + 50, ((⌊q7 * 80⌋ : ℤ) : ℚ) + 40⟩,
    position⟩, s)

/-- The generation loop, producing `count` objects starting at index `i`. -/
def genObjects (i : ℕ) (count : ℕ) (s : RandStream) :
    List DetectedObject × RandStream :=
  match count with
  | 0 => ([], s)
  | n + 1 =>
    let (o, s') := genObject i s
    let (rest, s'') := genObjects (i + 1) n s'
    (o :: rest, s'')

/-- JavaScript `String.prototype.trim` on character lists. -/
def jsTrimList (l : List Char) : List Char :=
  ((l.dropWhile Char.isWhitespace).reverse.dropWhile Char.isWhitespace).reverse

/-- JavaScript `String.prototype.trim`. -/
def jsTrim (t : String) : String := ⟨jsTrimList t.data⟩

/-- JavaScript `Array.prototype.join(sep)`. -/
def joinSep (sep : String) : List String → String
  | [] => ""
  | [a] => a
  | a :: rest => a ++ sep ++ joinSep sep rest

/-- The pluralized count phrase, e.g. `"2 cars"`. -/
def countPhrase (n : ℕ) (noun : String) : String :=
  toString n ++ " " ++ noun ++ (if n > 1 then ("s") else (""))

/-- The `description` string built by `simulateAdvancedDetection` from the
generated objects: counted categories, the literal `" detected. "`, the
safety clauses, then `trim()`. -/
def buildDescription (objs : List DetectedObject) : String :=
  let carCount := (objs.filter (fun o => o.type = ObjType.car)).length
  let bikeCount := (objs.filter
    (fun o => o.type = ObjType.bike ∨ o.type = ObjType.motorcycle)).length
  let pedestrianCount := (objs.filter (fun o => o.type = ObjType.pedestrian)).length
  let zebraCrossingCount := (objs.filter (fun o => o.type = ObjType.zebra_crossing)).length
  let detections : List String :=
    (if carCount > 0 then [countPhrase carCount ("car")] else []) ++
    (if bikeCount > 0 then [countPhrase bikeCount ("bike")] else []) ++
    (if pedestrianCount > 0 then [countPhrase pedestrianCount ("pedestrian")] else []) ++
    (if zebraCrossingCount > 0 then [countPhrase zebraCrossingCount ("zebra crossing")] else [])
  let base := "Detection complete: " ++ joinSep (", ") detections ++ " detected. " ++
    (if zebraCrossingCount > 0 then ("Zebra crossing available for safe passage. ") else ("")) ++
    (if carCount > 2 then ("Heavy traffic detected, exercise caution. ") else ("")) ++
    (if pedestrianCount > 0 then ("Other pedestrians nearby. ") else (""))
  jsTrim base

/-- The `reduce`-based confidence sum of `simulateAdvancedDetection`. -/
def confidenceSum (objs : List DetectedObject) : ℚ :=
  objs.foldl (fun sum o => sum + o.confidence) 0

/-- Function `simulateAdvancedDetection` (first revision): draws the object count
(2–6), generates the objects, builds the description and the rounded overall
confidence.  The `file` argument only feeds the object URL. -/
def simulateAdvancedDetection (fileName : String) (s : RandStream) :
    ProcessingResult × RandStream :=
  let (q0, s) := takeRand s
  let numObjects := (⌊q0 * 5⌋).toNat + 2
  let (objs, s) := genObjects 0 numObjects s
  let overallConfidence := confidenceSum objs / objs.length
  (⟨"blob:" ++ fileName, "", buildDescription objs, objs,
    (jsRound (overallConfidence * 100) : ℚ) / 100⟩, s)

end V1

namespace V2

/-- Structure `DetectionResult` of the second revision: coordinates are percentages of
the frame (`x = Math.random() * 0.7 * 100` and so on). -/
structure DetectionResult where
  object : String
  confidence : ℚ
  x : ℚ
  y : ℚ
  width : ℚ
  height : ℚ
  deriving DecidableEq, Repr

structure ProcessingResult where
  processed_video_url : String
  audio_feedback_url : String
  description_text : String
  detections : List DetectionResult
  deriving DecidableEq, Repr

/-- The `stages` array of `simulateAdvancedProcessing`. -/
def processingStages : List String :=
  ["Initializing AI Vision...",
   "Loading Neural Networks...",
   "Processing Video Frames...",
   "Detecting Objects...",
   "Analyzing Spatial Relationships...",
   "Generating Audio Feedback...",
   "Finalizing Results..."]

/-- The per-stage `setProcessingProgress` emissions of the processing loop:
stage `i` emits `(i + 1) / stages.length * 100`, one toast per stage. -/
def processingLoopEvents : List (String × ℚ) :=
  processingStages.enum.map
    (fun p => (p.2, ((p.1 : ℚ) + 1) / (processingStages.length : ℚ) * 100))

/-- Just the emitted progress values, in emission order. -/
def stageProgressEvents : List ℚ := processingLoopEvents.map (fun p => p.2)

/-- The `objectTypes` array of `simulateAdvancedProcessing`: category name
with its base confidence. -/
def objectTypes : List (String × ℚ) :=
  [("Car", 95/100), ("Motorcycle", 88/100), ("Bicycle", 92/100),
   ("Person", 97/100), ("Traffic Light", 85/100), ("Stop Sign", 93/100),
   ("Zebra Crossing", 89/100)]

/-- One iteration of the detection loop: pick a category, then evaluate the
object-literal fields `confidence`, `x`, `y`, `width`, `height` in order. -/
def genDetection (s : RandStream) : DetectionResult × RandStream :=
  let (q1, s) := takeRand s
  let obj := objectTypes.getD (⌊q1 * 7⌋).toNat ("Car", 95/100)
  let (q2, s) := takeRand s
  let (q3, s) := takeRand s
  let (q4, s) := takeRand s
  let (q5, s) := takeRand s
  let (q6, s) := takeRand s
  (⟨obj.1, obj.2 + (q2 - 1/2) * (1/10),
    q3 * (7/10) * 100, q4 * (7/10) * 100,
    (q5 * (2/10) + 1/10) * 100, (q6 * (2/10) + 1/10) * 100⟩, s)

/-- The detection loop, producing `count` detections. -/
def genDetections (count : ℕ) (s : RandStream) :
    List DetectionResult × RandStream :=
  match count with
  | 0 => ([], s)
  | n + 1 =>
    let (d, s') := genDetection s
    let (rest, s'') := genDetections n s'
    (d :: rest, s'')

/-- One listed entry of the summary: `` `${d.object} (${(d.confidence * 100).toFixed(1)}%)` ``. -/
def summaryEntry (d : DetectionResult) : String :=
  d.object ++ " (" ++ toFixed1 (d.confidence * 100) ++ "%)"

/-- All listed entries, in detection order. -/
def summaryEntries (dets : List DetectionResult) : List String :=
  dets.map summaryEntry

/-- The `description` template literal of `simulateAdvancedProcessing`. -/
def buildDescription2 (dets : List DetectionResult) (verdictDraw : ℚ) : String :=
  "🔍 VISION ANALYSIS COMPLETE: Detected " ++ toString dets.length ++
    " objects - " ++ V1.joinSep (", ") (summaryEntries dets) ++
    ". Navigation path is " ++
    (if verdictDraw > 1/2 then ("CLEAR") else ("REQUIRES CAUTION")) ++ "."

/-- Function `simulateAdvancedProcessing` (second revision): 2–5 detections, then the
description with its final `Math.random()` verdict draw. -/
def simulateAdvancedProcessing (fileName : String) (s : RandStream) :
    ProcessingResult × RandStream :=
  let (q0, s) := takeRand s
  let numDetections := (⌊q0 * 4⌋).toNat + 2
  let (dets, s) := genDetections numDetections s
  let (qv, s) := takeRand s
  (⟨"blob:" ++ fileName, "", buildDescription2 dets qv, dets⟩, s)

end V2

/-- A 2D-context drawing command, as issued by `drawDetectionBoxes`. -/
inductive DrawCmd where
  | clearRect (x y w h : ℚ)
  | strokeRect (style : String) (lineWidth shadowBlur : ℚ) (x y w h : ℚ)
  | fillRect (style : String) (x y w h : ℚ)
  | fillText (style font text : String) (x y : ℚ)
  deriving DecidableEq, Repr

/-- The overlay canvas: pixel dimensions plus the commands rendered since the
last clear (the pixel output is a function of these). -/
structure Canvas where
  width : ℕ
  height : ℕ
  commands : List DrawCmd
  deriving DecidableEq, Repr

/-- The video element dimensions `drawDetectionBoxes` reads
(`video.videoWidth || video.clientWidth`, same for height). -/
structure VideoDims where
  videoWidth : ℕ
  videoHeight : ℕ
  clientWidth : ℕ
  clientHeight : ℕ
  deriving DecidableEq, Repr

namespace V2

/-- The commands drawn for one detection at loop index `index`. -/
def detectionCmds (canvasW canvasH : ℕ) (index : ℕ) (d : DetectionResult) :
    List DrawCmd :=
  let x := d.x / 100 * (canvasW : ℚ)
  let y := d.y / 100 * (canvasH : ℚ)
  let w := d.width / 100 * (canvasW : ℚ)
  let h := d.height / 100 * (canvasH : ℚ)
  let hue := toString (263 + index * 30)
  [.strokeRect ("hsl(" ++ hue ++ ", 70%, 50%)") 3 10 x y w h,
   .fillRect ("hsla(" ++ hue ++ ", 70%, 50%, 0.8)") x (y - 30) w 30,
   .fillText ("white") ("bold 14px Arial")
     (d.object ++ " " ++ toFixed1 (d.confidence * 100) ++ "%") (x + 5) (y - 10)]

/-- Function `drawDetectionBoxes`: returns early (canvas untouched) when there is no
result; otherwise resizes the canvas to the video, clears it, and draws every
detection. -/
def drawDetectionBoxes (result : Option ProcessingResult) (video : VideoDims)
    (canvas : Canvas) : Canvas :=
  match result with
  | none => canvas
  | some r =>
    let w := if video.videoWidth ≠ 0 then video.videoWidth else video.clientWidth
    let h := if video.videoHeight ≠ 0 then video.videoHeight else video.clientHeight
    { width := w, height := h,
      commands :=
        DrawCmd.clearRect 0 0 (w : ℚ) (h : ℚ) ::
          (r.detections.enum.map (fun p => detectionCmds w h p.1 p.2)).flatten }

end V2

namespace Speech

/-- A synthesis voice as exposed by `speechSynthesis.getVoices()`. -/
structure Voice where
  name : String
  lang : String
  deriving DecidableEq, Repr

/-- One utterance handed to the synthesis engine. -/
structure SpeechSession where
  utteranceText : String
  voiceId : String
  isSpeaking : Bool
  deriving DecidableEq, Repr

/-- The browser synthesis engine: its utterance queue.  The head utterance is
the one being spoken. -/
structure SpeechEngine where
  queue : List SpeechSession
  deriving DecidableEq, Repr

/-- JavaScript `speechSynthesis.speaking`. -/
def speaking (e : SpeechEngine) : Bool := e.queue.any (fun u => u.isSpeaking)

/-- JavaScript `speechSynthesis.cancel()`: flushes the whole queue. -/
def cancel (_e : SpeechEngine) : SpeechEngine := ⟨[]⟩

/-- JavaScript `speechSynthesis.speak(u)`: enqueue; the utterance starts speaking at
once when the queue was empty. -/
def speakUtterance (e : SpeechEngine) (text voiceId : String) : SpeechEngine :=
  ⟨e.queue ++ [⟨text, voiceId, e.queue.isEmpty⟩]⟩

/-- Character-list test: does `hay` start with `needle`? -/
def listStarts : List Char → List Char → Bool
  | [], _ => true
  | _ :: _, [] => false
  | a :: as, b :: bs => a == b && listStarts as bs

/-- Character-list test: does `needle` occur anywhere in `hay`?
Models JavaScript `String.prototype.includes`. -/
def listHas (needle : List Char) : List Char → Bool
  | [] => needle.isEmpty
  | c :: rest => listStarts needle (c :: rest) || listHas needle rest

/-- JavaScript `hay.includes(needle)`. -/
def strHas (needle hay : String) : Bool := listHas needle.data hay.data

/-- JavaScript `hay.startsWith(needle)`. -/
def strStarts (needle hay : String) : Bool := listStarts needle.data hay.data

/-- Voice choice of `speakWithEnhancedVoice` (first revision): prefer an
English Google/Microsoft/Natural voice, then any English voice, then the
first voice, else leave the platform default. -/
def chooseVoiceV1 (voices : List Voice) : Option Voice :=
  let preferredVoices := voices.filter (fun v =>
    strStarts ("en") v.lang &&
      (strHas ("Google") v.name || strHas ("Microsoft") v.name || strHas ("Natural") v.name))
  match preferredVoices with
  | p :: _ => some p
  | [] =>
    match voices with
    | [] => none
    | v0 :: _ => some ((voices.find? (fun v => strStarts ("en") v.lang)).getD v0)

/-- Voice choice of `enhancedTextToSpeech` (second revision): the first
Google/Microsoft/Premium voice, if any. -/
def chooseVoiceV2 (voices : List Voice) : Option Voice :=
  voices.find? (fun v =>
    strHas ("Google") v.name || strHas ("Microsoft") v.name || strHas ("Premium") v.name)

/-- Function `speakWithEnhancedVoice` (first revision), engine effect: cancel when the
engine is speaking, then speak the new utterance with the chosen voice. -/
def speakWithEnhancedVoice (voices : List Voice) (text : String)
    (e : SpeechEngine) : SpeechEngine :=
  let e1 := if speaking e then cancel e else e
  speakUtterance e1 text
    (match chooseVoiceV1 voices with | some v => v.name | none => "default")

/-- Function `enhancedTextToSpeech` (second revision), engine effect: unconditional
cancel, then speak. -/
def enhancedTextToSpeech (voices : List Voice) (text : String)
    (e : SpeechEngine) : SpeechEngine :=
  speakUtterance (cancel e) text
    (match chooseVoiceV2 voices with | some v => v.name | none => "default")

/-- The number of sessions with `isSpeaking = true` held by the engine. -/
def activeCount (e : SpeechEngine) : ℕ :=
  (e.queue.filter (fun u => u.isSpeaking)).length

/-- Engine states the browser can be in: whenever the queue is non-empty its
head utterance is being spoken. -/
def WellFormed (e : SpeechEngine) : Prop := e.queue ≠ [] → speaking e = true

end Speech

namespace Pipeline

/-- A file as delivered by the file input. -/
structure JsFile where
  name : String
  mimeType : String
  sizeBytes : ℕ
  deriving DecidableEq, Repr

/-- Error taxonomy of the spec; the embedded handlers report which (if any)
they raise. -/
inductive AppError where
  | invalidInput | permissionDenied | alreadyRecording | synthesis | cancelled
  deriving DecidableEq, Repr

/-- The component state the controller claims are about. -/
structure PState where
  selectedFile : Option ℕ
  isProcessing : Bool
  result : Option ℕ
  pendingRun : Option ℕ
  deriving DecidableEq, Repr

/-- External events: file selection, the submit gesture, and the in-flight
simulator run resuming after its awaits. -/
inductive PEvent where
  | selectFile (f : ℕ)
  | submit
  | finishRun
  deriving DecidableEq, Repr

def init : PState := ⟨none, false, none, none⟩

/-- One controller step.  `selectFile` is `handleFileSelect` (always allowed,
also while processing); `submit` is `handleSubmit` entering processing with
the currently selected file (the button is disabled while processing);
`finishRun` is the `await simulateAdvancedDetection` resumption, which calls
`setResult` unconditionally — there is no cancellation-token check. -/
def step (s : PState) (e : PEvent) : PState :=
  match e with
  | .selectFile f => { s with selectedFile := some f }
  | .submit =>
    match s.selectedFile with
    | none => s
    | some f =>
      if s.isProcessing then s
      else { s with isProcessing := true, pendingRun := some f }
  | .finishRun =>
    match s.pendingRun with
    | none => s
    | some f => { s with result := some f, isProcessing := false, pendingRun := none }

/-- Run a trace of events from a state. -/
def run (s : PState) (es : List PEvent) : PState := es.foldl step s

/-- Function `handleFileSelect`: takes `event.target.files`, and when a first file is
present adopts it and shows a toast; it performs no type check and raises no
error in any case. -/
def handleFileSelect (files : List JsFile) (selected : Option JsFile) :
    Option JsFile × Option AppError :=
  match files with
  | [] => (selected, none)
  | f :: _ => (some f, none)

/-- The only video-type restriction in the component: the advisory
`accept="video/*"` attribute on the hidden input.  A file is video-like when
its declared MIME type starts with `video`. -/
def isVideoLike (f : JsFile) : Bool := Speech.strStarts ("video") f.mimeType

end Pipeline

/-- The arithmetic mean of a list of rationals; this is the spec's wording of
`overallConfidence` (mean of detection confidences), stated independently of
the code's `reduce`-then-divide computation. -/
def arithMean (l : List ℚ) : ℚ := l.sum / (l.length : ℚ)


/-! ### Shared lemmas about the string and stream helpers -/

theorem validStream_head (s : RandStream) (h : ValidStream s) :
    0 ≤ s.headD 0 ∧ s.headD 0 < 1 := by
  cases s with
  | nil => simp
  | cons a t => exact h a (by simp)

theorem validStream_tail (s : RandStream) (h : ValidStream s) :
    ValidStream s.tail := by
  cases s with
  | nil => simpa using h
  | cons a t => intro q hq; exact h q (by simp at hq; simp [hq])

/-- The rounded value is within `1/2` of the original. -/
theorem jsRound_close (q : ℚ) : |((jsRound q : ℚ)) - q| ≤ 1/2 := by
  unfold jsRound
  rw [abs_le]
  constructor
  · have h := Int.lt_floor_add_one (q + 1/2)
    push_cast at h ⊢
    linarith
  · have h := Int.floor_le (q + 1/2)
    push_cast at h ⊢
    linarith

namespace Speech

theorem listStarts_append (n t : List Char) : listStarts n (n ++ t) = true := by
  induction n with
  | nil => simp [listStarts]
  | cons a as ih => simp [listStarts, ih]

theorem listHas_of_starts {n h : List Char} (hs : listStarts n h = true) :
    listHas n h = true := by
  cases h with
  | nil =>
    cases n with
    | nil => simp [listHas]
    | cons a as => simp [listStarts] at hs
  | cons c rest => simp [listHas, hs]

theorem listHas_cons {n r : List Char} (c : Char) (hr : listHas n r = true) :
    listHas n (c :: r) = true := by
  simp [listHas, hr]

theorem listHas_append_left {n h : List Char} (p : List Char)
    (hh : listHas n h = true) : listHas n (p ++ h) = true := by
  induction p with
  | nil => simpa using hh
  | cons c cs ih => exact listHas_cons c ih

theorem listHas_infix (n p t : List Char) : listHas n (p ++ (n ++ t)) = true :=
  listHas_append_left p (listHas_of_starts (listStarts_append n t))

theorem listHas_of_eq_append {n l : List Char} (p t : List Char)
    (hl : l = p ++ (n ++ t)) : listHas n l = true := by
  subst hl; exact listHas_infix n p t

end Speech

namespace V1

theorem rtrimWs_append (a b : List Char)
    (hb : (b.reverse.dropWhile Char.isWhitespace).reverse ≠ []) :
    ((a ++ b).reverse.dropWhile Char.isWhitespace).reverse
      = a ++ (b.reverse.dropWhile Char.isWhitespace).reverse := by
  rw [List.reverse_append, List.dropWhile_append]
  have hne : ¬ (b.reverse.dropWhile Char.isWhitespace).isEmpty = true := by
    intro hE
    exact hb (by simp [List.isEmpty_iff.mp hE])
  rw [if_neg hne, List.reverse_append, List.reverse_reverse]

theorem rtrimWs_ne_nil {l : List Char} {c : Char} (hc : c.isWhitespace = false)
    (hmem : c ∈ l) : (l.reverse.dropWhile Char.isWhitespace).reverse ≠ [] := by
  intro hE
  have hdrop : l.reverse.dropWhile Char.isWhitespace = [] := by
    simpa using congrArg List.reverse hE
  have := (List.dropWhile_eq_nil_iff).mp hdrop c (by simpa using hmem)
  simp [hc] at this

theorem jsTrimList_eq_of_head (c : Char) (rest : List Char)
    (hc : c.isWhitespace = false) :
    jsTrimList (c :: rest)
      = ((c :: rest).reverse.dropWhile Char.isWhitespace).reverse := by
  unfold jsTrimList
  rw [List.dropWhile_cons_of_neg (by simp [hc])]

theorem joinSep_mem_split (sep : String) (l : List String) (x : String)
    (hx : x ∈ l) :
    ∃ p t, (joinSep sep l).data = p ++ (x.data ++ t) := by
  induction l with
  | nil => cases hx
  | cons a rest ih =>
    cases rest with
    | nil =>
      have : x = a := by simpa using hx
      subst this
      exact ⟨[], [], by simp [joinSep]⟩
    | cons b more =>
      rcases (by simpa using hx : x = a ∨ x ∈ b :: more) with h | h
      · subst h
        refine ⟨[], (sep ++ joinSep sep (b :: more)).data, ?_⟩
        simp [joinSep]
      · rcases ih h with ⟨p, t, hpt⟩
        refine ⟨(a ++ sep).data ++ p, t, ?_⟩
        simp [joinSep, hpt]

theorem confidenceSum_eq (objs : List DetectedObject) :
    confidenceSum objs = (objs.map (fun o => o.confidence)).sum := by
  unfold confidenceSum
  suffices h : ∀ a : ℚ, objs.foldl (fun sum o => sum + o.confidence) a
      = a + (objs.map (fun o => o.confidence)).sum by
    simpa using h 0
  induction objs with
  | nil => intro a; simp
  | cons o rest ih =>
    intro a
    simp [List.foldl_cons, ih, add_assoc]

end V1

/-- Floor of a draw scaled by a positive constant lies in `[0, c)`. -/
theorem floor_scale_bounds (q c : ℚ) (h0 : 0 ≤ q) (h1 : q < 1) (hc : 0 < c) :
    0 ≤ ((⌊q * c⌋ : ℤ) : ℚ) ∧ ((⌊q * c⌋ : ℤ) : ℚ) < c := by
  constructor
  · exact_mod_cast Int.floor_nonneg.mpr (mul_nonneg h0 hc.le)
  · calc ((⌊q * c⌋ : ℤ) : ℚ) ≤ q * c := Int.floor_le _
    _ < 1 * c := by nlinarith
    _ = c := one_mul c

/-- Rounding stays inside an integer bracket around the value. -/
theorem jsRound_mem (z : ℚ) (lo hi : ℤ) (hlo : (lo : ℚ) ≤ z) (hhi : z < hi) :
    lo ≤ jsRound z ∧ jsRound z ≤ hi := by
  unfold jsRound
  constructor
  · exact Int.le_floor.mpr (by linarith)
  · have h : ⌊z + 1/2⌋ < hi + 1 := Int.floor_lt.mpr (by push_cast; linarith)
    omega

/-! ### Invariants of the detection generators -/

namespace V1

/-- The stream left by one generation-loop iteration is the input stream with
its seven consumed draws removed. -/
theorem genObject_snd (i : ℕ) (s : RandStream) :
    (genObject i s).2 = s.tail.tail.tail.tail.tail.tail.tail := rfl

theorem validStream_genObject (i : ℕ) (s : RandStream) (h : ValidStream s) :
    ValidStream (genObject i s).2 := by
  rw [genObject_snd]
  exact validStream_tail _ (validStream_tail _ (validStream_tail _
    (validStream_tail _ (validStream_tail _ (validStream_tail _
      (validStream_tail _ h))))))

/-- Per-object bounds of the first-revision generator: confidence in the
`[0.7, 1]` band after two-decimal rounding, bbox inside the 640×480 frame. -/
theorem genObject_bounds (i : ℕ) (s : RandStream) (h : ValidStream s) :
    let o := (genObject i s).1
    (7/10 ≤ o.confidence ∧ o.confidence ≤ 1) ∧
    (0 ≤ o.bbox.x ∧ o.bbox.x < 400) ∧ (0 ≤ o.bbox.y ∧ o.bbox.y < 300) ∧
    (50 ≤ o.bbox.width ∧ o.bbox.width < 150) ∧
    (40 ≤ o.bbox.height ∧ o.bbox.height < 120) := by
  have h1 := validStream_head s h
  have t1 := validStream_tail s h
  have h2 := validStream_head _ t1
  have t2 := validStream_tail _ t1
  have h3 := validStream_head _ t2
  have t3 := validStream_tail _ t2
  have h4 := validStream_head _ t3
  have t4 := validStream_tail _ t3
  have h5 := validStream_head _ t4
  have t5 := validStream_tail _ t4
  have h6 := validStream_head _ t5
  have t6 := validStream_tail _ t5
  have h7 := validStream_head _ t6
  refine ⟨?_, ?_, ?_, ?_, ?_⟩
  · have hz : (70 : ℚ) ≤ (s.tail.headD 0 * (3/10) + 7/10) * 100 := by nlinarith [h2.1]
    have hz' : (s.tail.headD 0 * (3/10) + 7/10) * 100 < (100 : ℚ) := by nlinarith [h2.2]
    have hr := jsRound_mem ((s.tail.headD 0 * (3/10) + 7/10) * 100) 70 100 (by exact_mod_cast hz) (by exact_mod_cast hz')
    show 7/10 ≤ ((jsRound ((s.tail.headD 0 * (3/10) + 7/10) * 100) : ℤ) : ℚ) / 100 ∧ _
    constructor
    · have : (70 : ℚ) ≤ ((jsRound ((s.tail.headD 0 * (3/10) + 7/10) * 100) : ℤ) : ℚ) := by
        exact_mod_cast hr.1
      linarith
    · have : ((jsRound ((s.tail.headD 0 * (3/10) + 7/10) * 100) : ℤ) : ℚ) ≤ 100 := by
        exact_mod_cast hr.2
      show ((jsRound ((s.tail.headD 0 * (3/10) + 7/10) * 100) : ℤ) : ℚ) / 100 ≤ 1
      linarith
  · exact floor_scale_bounds _ 400 h4.1 h4.2 (by norm_num)
  · exact floor_scale_bounds _ 300 h5.1 h5.2 (by norm_num)
  · show 50 ≤ ((⌊s.tail.tail.tail.tail.tail.headD 0 * 100⌋ : ℤ) : ℚ) + 50 ∧
      ((⌊s.tail.tail.tail.tail.tail.headD 0 * 100⌋ : ℤ) : ℚ) + 50 < 150
    have := floor_scale_bounds (s.tail.tail.tail.tail.tail.headD 0) 100 h6.1 h6.2 (by norm_num)
    constructor <;> linarith [this.1, this.2]
  · show 40 ≤ ((⌊s.tail.tail.tail.tail.tail.tail.headD 0 * 80⌋ : ℤ) : ℚ) + 40 ∧
      ((⌊s.tail.tail.tail.tail.tail.tail.headD 0 * 80⌋ : ℤ) : ℚ) + 40 < 120
    have := floor_scale_bounds (s.tail.tail.tail.tail.tail.tail.headD 0) 80 h7.1 h7.2 (by norm_num)
    constructor <;> linarith [this.1, this.2]

/-- The generation loop produces exactly `count` objects. -/
theorem genObjects_length (count i : ℕ) (s : RandStream) :
    (genObjects i count s).1.length = count := by
  induction count generalizing i s with
  | zero => simp [genObjects]
  | succ n ih => simp [genObjects, ih]

/-- Every object the loop produces satisfies any property every single
iteration guarantees on valid streams. -/
theorem genObjects_mem (P : DetectedObject → Prop)
    (hP : ∀ i s, ValidStream s → P (genObject i s).1) :
    ∀ (count i : ℕ) (s : RandStream), ValidStream s →
      ∀ o ∈ (genObjects i count s).1, P o := by
  intro count
  induction count with
  | zero => intro i s _ o ho; simp [genObjects] at ho
  | succ n ih =>
    intro i s hs o ho
    have hstep : (genObjects i (n + 1) s).1
        = (genObject i s).1 :: (genObjects (i + 1) n (genObject i s).2).1 := rfl
    rw [hstep] at ho
    rcases List.mem_cons.mp ho with ho' | ho'
    · exact ho' ▸ hP i s hs
    · exact ih (i + 1) _ (validStream_genObject i s hs) o ho'

end V1

namespace V2

theorem genDetection_snd (s : RandStream) :
    (genDetection s).2 = s.tail.tail.tail.tail.tail.tail := rfl

theorem validStream_genDetection (s : RandStream) (h : ValidStream s) :
    ValidStream (genDetection s).2 := by
  rw [genDetection_snd]
  exact validStream_tail _ (validStream_tail _ (validStream_tail _
    (validStream_tail _ (validStream_tail _ (validStream_tail _ h)))))

/-- Every base confidence in the `objectTypes` table is between 0.85 and 0.97. -/
theorem objectTypes_base_bounds (k : ℕ) :
    85/100 ≤ (objectTypes.getD k (("Car"), 95/100)).2 ∧
    (objectTypes.getD k (("Car"), 95/100)).2 ≤ 97/100 := by
  rcases k with _ | _ | _ | _ | _ | _ | _ | k <;>
    simp [objectTypes, List.getD] <;> norm_num

/-- Per-detection bounds of the second-revision generator: confidence in the
band `[0.80, 1.02)`, percentage bbox with `x + width < 100` and
`y + height < 100`. -/
theorem genDetection_bounds (s : RandStream) (h : ValidStream s) :
    let d := (genDetection s).1
    (4/5 ≤ d.confidence ∧ d.confidence < 51/50) ∧
    (0 ≤ d.x ∧ d.x < 70) ∧ (0 ≤ d.y ∧ d.y < 70) ∧
    (10 ≤ d.width ∧ d.width < 30) ∧ (10 ≤ d.height ∧ d.height < 30) := by
  have h1 := validStream_head s h
  have t1 := validStream_tail s h
  have h2 := validStream_head _ t1
  have t2 := validStream_tail _ t1
  have h3 := validStream_head _ t2
  have t3 := validStream_tail _ t2
  have h4 := validStream_head _ t3
  have t4 := validStream_tail _ t3
  have h5 := validStream_head _ t4
  have t5 := validStream_tail _ t4
  have h6 := validStream_head _ t5
  have hbase := objectTypes_base_bounds (⌊s.headD 0 * 7⌋).toNat
  refine ⟨⟨?_, ?_⟩, ⟨?_, ?_⟩, ⟨?_, ?_⟩, ⟨?_, ?_⟩, ⟨?_, ?_⟩⟩
  · show 4/5 ≤ (objectTypes.getD (⌊s.headD 0 * 7⌋).toNat (("Car"), 95/100)).2
      + (s.tail.headD 0 - 1/2) * (1/10)
    nlinarith [hbase.1, h2.1]
  · show (objectTypes.getD (⌊s.headD 0 * 7⌋).toNat (("Car"), 95/100)).2
      + (s.tail.headD 0 - 1/2) * (1/10) < 51/50
    nlinarith [hbase.2, h2.2]
  · show 0 ≤ s.tail.tail.headD 0 * (7/10) * 100
    nlinarith [h3.1]
  · show s.tail.tail.headD 0 * (7/10) * 100 < 70
    nlinarith [h3.2]
  · show 0 ≤ s.tail.tail.tail.headD 0 * (7/10) * 100
    nlinarith [h4.1]
  · show s.tail.tail.tail.headD 0 * (7/10) * 100 < 70
    nlinarith [h4.2]
  · show 10 ≤ (s.tail.tail.tail.tail.headD 0 * (2/10) + 1/10) * 100
    nlinarith [h5.1]
  · show (s.tail.tail.tail.tail.headD 0 * (2/10) + 1/10) * 100 < 30
    nlinarith [h5.2]
  · show 10 ≤ (s.tail.tail.tail.tail.tail.headD 0 * (2/10) + 1/10) * 100
    nlinarith [h6.1]
  · show (s.tail.tail.tail.tail.tail.headD 0 * (2/10) + 1/10) * 100 < 30
    nlinarith [h6.2]

theorem genDetections_length (count : ℕ) (s : RandStream) :
    (genDetections count s).1.length = count := by
  induction count generalizing s with
  | zero => simp [genDetections]
  | succ n ih => simp [genDetections, ih]

theorem genDetections_mem (P : DetectionResult → Prop)
    (hP : ∀ s, ValidStream s → P (genDetection s).1) :
    ∀ (count : ℕ) (s : RandStream), ValidStream s →
      ∀ d ∈ (genDetections count s).1, P d := by
  intro count
  induction count with
  | zero => intro s _ d hd; simp [genDetections] at hd
  | succ n ih =>
    intro s hs d hd
    have hstep : (genDetections (n + 1) s).1
        = (genDetection s).1 :: (genDetections n (genDetection s).2).1 := rfl
    rw [hstep] at hd
    rcases List.mem_cons.mp hd with hd' | hd'
    · exact hd' ▸ hP s hs
    · exact ih _ (validStream_genDetection s hs) d hd'

end V2

namespace Speech

/-- On any well-formed engine, `speakWithEnhancedVoice` leaves exactly the
new utterance, speaking, in the queue. -/
theorem speakWEV_result (voices : List Voice) (t : String) (e : SpeechEngine)
    (h : WellFormed e) :
    speakWithEnhancedVoice voices t e
      = ⟨[⟨t, (match chooseVoiceV1 voices with | some v => v.name | none => "default"),
           true⟩]⟩ := by
  unfold speakWithEnhancedVoice
  by_cases hs : speaking e = true
  · simp [hs, cancel, speakUtterance]
  · have hq : e.queue = [] := by
      by_contra hne
      exact hs (h hne)
    simp [hs, speakUtterance, hq]

/-- Function `enhancedTextToSpeech` leaves exactly the new utterance,
speaking, in the queue (it cancels unconditionally). -/
theorem enhancedTTS_result (voices : List Voice) (t : String) (e : SpeechEngine) :
    enhancedTextToSpeech voices t e
      = ⟨[⟨t, (match chooseVoiceV2 voices with | some v => v.name | none => "default"),
           true⟩]⟩ := by
  simp [enhancedTextToSpeech, cancel, speakUtterance]

end Speech

/-! ### Claim theorems -/

/-- C2: the spec requires that when a new asset is selected while a detection
run is in flight, the superseded run's result must never be delivered
(cancellation-token checks before each emission and before returning).  The
code has no cancellation token at all: `handleSubmit` publishes the awaited
result unconditionally.  On the trace select file 0 → submit → select file 1
→ run finishes, the controller ends with the stale result of file 0 as the
current result while file 1 is the selected asset. -/
theorem c2_stale_result_delivered :
    Pipeline.run Pipeline.init
      [Pipeline.PEvent.selectFile 0, Pipeline.PEvent.submit,
       Pipeline.PEvent.selectFile 1, Pipeline.PEvent.finishRun]
      = { selectedFile := some 1, isProcessing := false,
          result := some 0, pendingRun := none } := rfl

/-- C7 counterexample: `handleFileSelect` accepts a file whose declared type
is `text/plain` — not video-like — and raises no `InvalidInputError`,
refuting the claim that non-video files are rejected. -/
theorem c7_nonvideo_file_accepted :
    Pipeline.isVideoLike ⟨("notes.txt"), ("text/plain"), 5⟩ = false ∧
    Pipeline.handleFileSelect [⟨("notes.txt"), ("text/plain"), 5⟩] none
      = (some ⟨("notes.txt"), ("text/plain"), 5⟩, none) := by
  exact ⟨rfl, rfl⟩

/-- C7 (amended): `handleFileSelect` adopts any provided file regardless of
its declared type, raising no error; with no file it is a silent no-op (the
video-only restriction exists only as the advisory `accept` filter of the
file input, not as a code check). -/
theorem c7_selectFile_accepts_any_file (f : Pipeline.JsFile)
    (rest : List Pipeline.JsFile) (sel : Option Pipeline.JsFile) :
    Pipeline.handleFileSelect (f :: rest) sel = (some f, none) ∧
    Pipeline.handleFileSelect [] sel = (sel, none) :=
  ⟨rfl, rfl⟩

/-- C8: the processing loop emits exactly one progress event per named stage;
together with the initial `setProcessingProgress(0)` the emitted values
advance strictly monotonically from 0 to 100 in equal steps of `100/7`,
reaching 100 at the final stage. -/
theorem c8_progress_one_event_per_stage :
    V2.stageProgressEvents.length = V2.processingStages.length ∧
    List.Chain' (fun a b => a < b ∧ b - a = 100/7) ((0 : ℚ) :: V2.stageProgressEvents) ∧
    V2.stageProgressEvents.getLast? = some 100 := by
  have hev : V2.stageProgressEvents
      = [100/7, 200/7, 300/7, 400/7, 500/7, 600/7, 100] := by
    simp [V2.stageProgressEvents, V2.processingLoopEvents, V2.processingStages,
      List.enum]
    norm_num
  refine ⟨by rw [hev]; rfl, ?_, by rw [hev]; rfl⟩
  rw [hev]
  refine List.chain'_cons.mpr ⟨by norm_num, ?_⟩
  refine List.chain'_cons.mpr ⟨by norm_num, ?_⟩
  refine List.chain'_cons.mpr ⟨by norm_num, ?_⟩
  refine List.chain'_cons.mpr ⟨by norm_num, ?_⟩
  refine List.chain'_cons.mpr ⟨by norm_num, ?_⟩
  refine List.chain'_cons.mpr ⟨by norm_num, ?_⟩
  refine List.chain'_cons.mpr ⟨by norm_num, ?_⟩
  exact List.chain'_singleton _

/-- C9: overlay redraw is idempotent — with the same `ProcessingResult` and
the same video dimensions, redrawing over an already-drawn canvas produces
the same canvas contents (the surface is resized and cleared before each
draw) — and no overlay is drawn when the `ProcessingResult` is absent. -/
theorem c9_draw_idempotent_and_absent (r : Option V2.ProcessingResult)
    (video : VideoDims) (canvas : Canvas) :
    V2.drawDetectionBoxes r video (V2.drawDetectionBoxes r video canvas)
      = V2.drawDetectionBoxes r video canvas ∧
    V2.drawDetectionBoxes none video canvas = canvas := by
  refine ⟨?_, rfl⟩
  cases r with
  | none => rfl
  | some x => rfl

/-- C6: both speech entry points cancel any currently active utterance before
speaking, so after any `speak` call exactly one `SpeechSession` is active,
and two successive `speak` calls leave exactly one active session. -/
theorem c6_speak_single_active_session (voices : List Speech.Voice)
    (t1 t2 : String) (e : Speech.SpeechEngine) (h : Speech.WellFormed e) :
    Speech.activeCount (Speech.speakWithEnhancedVoice voices t1 e) = 1 ∧
    Speech.activeCount
      (Speech.speakWithEnhancedVoice voices t2
        (Speech.speakWithEnhancedVoice voices t1 e)) = 1 ∧
    Speech.activeCount (Speech.enhancedTextToSpeech voices t1 e) = 1 ∧
    Speech.activeCount
      (Speech.enhancedTextToSpeech voices t2
        (Speech.enhancedTextToSpeech voices t1 e)) = 1 := by
  have h1 := Speech.speakWEV_result voices t1 e h
  have hwf : Speech.WellFormed (Speech.speakWithEnhancedVoice voices t1 e) := by
    rw [h1]
    intro _
    simp [Speech.speaking]
  have h2 := Speech.speakWEV_result voices t2 _ hwf
  have h3 := Speech.enhancedTTS_result voices t1 e
  have h4 := Speech.enhancedTTS_result voices t2 (Speech.enhancedTextToSpeech voices t1 e)
  rw [h1] at h2
  rw [h3] at h4
  refine ⟨?_, ?_, ?_, ?_⟩ <;>
    simp [h1, h2, h3, h4, Speech.activeCount]

/-- Witness for C6, at the empty engine and an empty voice list. -/
theorem c6_speak_single_active_session_witness :
    Speech.activeCount
      (Speech.speakWithEnhancedVoice [] ("b")
        (Speech.speakWithEnhancedVoice [] ("a") ⟨[]⟩)) = 1 :=
  (c6_speak_single_active_session [] ("a") ("b") ⟨[]⟩
    (fun hne => absurd rfl hne)).2.1

/-- The objects of a first-revision result are exactly the generation-loop
output on the post-count stream. -/
theorem V1.simulate_objects_eq (fileName : String) (s : RandStream) :
    (V1.simulateAdvancedDetection fileName s).1.detected_objects
      = (V1.genObjects 0 ((⌊s.headD 0 * 5⌋).toNat + 2) s.tail).1 := rfl

/-- The overall score of a first-revision result, unfolded. -/
theorem V1.simulate_score_eq (fileName : String) (s : RandStream) :
    (V1.simulateAdvancedDetection fileName s).1.confidence_score
      = (jsRound ((V1.confidenceSum (V1.simulateAdvancedDetection fileName s).1.detected_objects
          / ((V1.simulateAdvancedDetection fileName s).1.detected_objects.length : ℚ)) * 100) : ℚ)
        / 100 := rfl

/-- The detections of a second-revision result are exactly the detection-loop
output on the post-count stream. -/
theorem V2.simulate_dets_eq (fileName : String) (s : RandStream) :
    (V2.simulateAdvancedProcessing fileName s).1.detections
      = (V2.genDetections ((⌊s.headD 0 * 4⌋).toNat + 2) s.tail).1 := rfl

/-- Both simulators always generate at least two detections. -/
theorem simulate_len_ge_two (fileName : String) (s : RandStream) :
    2 ≤ (V1.simulateAdvancedDetection fileName s).1.detected_objects.length ∧
    2 ≤ (V2.simulateAdvancedProcessing fileName s).1.detections.length := by
  constructor
  · rw [V1.simulate_objects_eq, V1.genObjects_length]
    omega
  · rw [V2.simulate_dets_eq, V2.genDetections_length]
    omega

/-- C10: every completed detection run produces at least 2 detections — the
count draws are `⌊q·5⌋+2` and `⌊q·4⌋+2` — so the detections list of a
produced result is never empty and the mean-confidence division never has a
zero denominator. -/
theorem c10_at_least_two_detections (fileName : String) (s : RandStream) :
    2 ≤ (V1.simulateAdvancedDetection fileName s).1.detected_objects.length ∧
    (V1.simulateAdvancedDetection fileName s).1.detected_objects ≠ [] ∧
    (((V1.simulateAdvancedDetection fileName s).1.detected_objects.length : ℚ)) ≠ 0 ∧
    2 ≤ (V2.simulateAdvancedProcessing fileName s).1.detections.length := by
  obtain ⟨h1, h2⟩ := simulate_len_ge_two fileName s
  refine ⟨h1, ?_, ?_, h2⟩
  · intro hnil
    rw [hnil] at h1
    simp at h1
  · intro hz
    have : (V1.simulateAdvancedDetection fileName s).1.detected_objects.length = 0 := by
      exact_mod_cast hz
    omega

/-- C3: the produced `confidence_score` is the arithmetic mean of the
detection confidences rounded to two decimals, hence within `1/200` of the
exact mean; the empty-detections case never arises for a produced result
(the list is provably non-empty). -/
theorem c3_confidence_score_is_mean (fileName : String) (s : RandStream) :
    (V1.simulateAdvancedDetection fileName s).1.detected_objects ≠ [] ∧
    |(V1.simulateAdvancedDetection fileName s).1.confidence_score
        - arithMean ((V1.simulateAdvancedDetection fileName s).1.detected_objects.map
            (fun o => o.confidence))| ≤ 1/200 := by
  have hlen := (simulate_len_ge_two fileName s).1
  constructor
  · intro hnil
    rw [hnil] at hlen
    simp at hlen
  · set objs := (V1.simulateAdvancedDetection fileName s).1.detected_objects with hobjs
    have hmean : V1.confidenceSum objs / ((objs.length : ℚ))
        = arithMean (objs.map (fun o => o.confidence)) := by
      rw [V1.confidenceSum_eq, arithMean, List.length_map]
    set m := arithMean (objs.map (fun o => o.confidence)) with hm
    have hscore : (V1.simulateAdvancedDetection fileName s).1.confidence_score
        = ((jsRound (m * 100) : ℤ) : ℚ) / 100 := by
      rw [V1.simulate_score_eq, ← hobjs, hmean]
    rw [hscore]
    have hclose := jsRound_close (m * 100)
    have heq : ((jsRound (m * 100) : ℤ) : ℚ) / 100 - m
        = (((jsRound (m * 100) : ℤ) : ℚ) - m * 100) / 100 := by ring
    rw [heq, abs_div]
    have h100 : |(100:ℚ)| = 100 := by norm_num
    rw [h100, div_le_iff₀ (by norm_num : (0:ℚ) < 100)]
    calc |((jsRound (m * 100) : ℤ) : ℚ) - m * 100| ≤ 1/2 := hclose
    _ = 1/200 * 100 := by norm_num

/-- Floor evaluation on explicit rationals. -/
theorem floor_eval (q : ℚ) (n : ℤ) (h1 : (n : ℚ) ≤ q) (h2 : q < n + 1) :
    ⌊q⌋ = n := by
  rw [Int.floor_eq_iff]
  exact ⟨h1, by exact_mod_cast h2⟩

/-- C4 counterexample: on the valid draw stream `[0, 3/7, 99/100]` the first
generated detection of `simulateAdvancedProcessing` is a Person with
confidence `0.97 + (0.99 - 0.5)·0.1 = 1.019 > 1`, refuting the claim that
every confidence lies in `[0, 1]`. -/
theorem c4_confidence_above_one :
    ∃ d ∈ (V2.simulateAdvancedProcessing ("f.mp4") [0, 3/7, 99/100]).1.detections,
      1 < d.confidence := by
  rw [V2.simulate_dets_eq]
  refine ⟨(V2.genDetection ([3/7, 99/100] : RandStream)).1, ?_, ?_⟩
  · have hstep : (V2.genDetections
        ((⌊([0, 3/7, 99/100] : RandStream).headD 0 * 4⌋).toNat + 2)
        (([0, 3/7, 99/100] : RandStream).tail)).1
        = (V2.genDetection ([3/7, 99/100] : RandStream)).1
          :: (V2.genDetections
              ((⌊([0, 3/7, 99/100] : RandStream).headD 0 * 4⌋).toNat + 1)
              (V2.genDetection ([3/7, 99/100] : RandStream)).2).1 := rfl
    rw [hstep]
    exact List.mem_cons_self _ _
  · show 1 < (V2.objectTypes.getD
        (⌊([3/7, 99/100] : RandStream).headD 0 * 7⌋).toNat (("Car"), 95/100)).2
      + (([3/7, 99/100] : RandStream).tail.headD 0 - 1/2) * (1/10)
    simp only [List.headD_cons, List.tail_cons]
    rw [floor_eval ((3/7 : ℚ) * 7) 3 (by norm_num) (by norm_num)]
    show 1 < (V2.objectTypes.getD 3 (("Car"), 95/100)).2 + ((99/100 : ℚ) - 1/2) * (1/10)
    have hgetD : (V2.objectTypes.getD 3 (("Car"), 95/100)).2 = 97/100 := rfl
    rw [hgetD]
    norm_num

/-- C4 (amended): every generated confidence is drawn from a high-confidence
band, but the bands differ from the claimed `[0, 1]`: `[0.7, 1]` for
`simulateAdvancedDetection` and `[0.80, 1.02)` — which exceeds 1 — for
`simulateAdvancedProcessing` (base up to 0.97 plus up to 0.05 variation). -/
theorem c4_confidence_bands (fileName : String) (s : RandStream)
    (h : ValidStream s) :
    (∀ o ∈ (V1.simulateAdvancedDetection fileName s).1.detected_objects,
       7/10 ≤ o.confidence ∧ o.confidence ≤ 1) ∧
    (∀ d ∈ (V2.simulateAdvancedProcessing fileName s).1.detections,
       4/5 ≤ d.confidence ∧ d.confidence < 51/50) := by
  constructor
  · intro o ho
    rw [V1.simulate_objects_eq] at ho
    exact V1.genObjects_mem
      (fun o => 7/10 ≤ o.confidence ∧ o.confidence ≤ 1)
      (fun i s hs => (V1.genObject_bounds i s hs).1)
      _ 0 _ (validStream_tail s h) o ho
  · intro d hd
    rw [V2.simulate_dets_eq] at hd
    exact V2.genDetections_mem
      (fun d => 4/5 ≤ d.confidence ∧ d.confidence < 51/50)
      (fun s hs => (V2.genDetection_bounds s hs).1)
      _ _ (validStream_tail s h) d hd

/-- Witness for C4 on the valid (empty) draw stream: the first generated
object has confidence in the `[0.7, 1]` band. -/
theorem c4_confidence_bands_witness :
    ValidStream [] ∧
    7/10 ≤ ((V1.simulateAdvancedDetection ("f.mp4") []).1.detected_objects.headD
      ⟨(""), V1.ObjType.car, 0, ⟨0, 0, 0, 0⟩, ("")⟩).confidence := by
  have hval : ValidStream ([] : RandStream) := fun q hq => absurd hq (List.not_mem_nil q)
  refine ⟨hval, ?_⟩
  have hstep : (V1.simulateAdvancedDetection ("f.mp4") []).1.detected_objects
      = (V1.genObject 0 []).1
        :: (V1.genObjects 1 ((⌊([] : RandStream).headD 0 * 5⌋).toNat + 1)
            (V1.genObject 0 []).2).1 := rfl
  have hmem : (V1.simulateAdvancedDetection ("f.mp4") []).1.detected_objects.headD
      ⟨(""), V1.ObjType.car, 0, ⟨0, 0, 0, 0⟩, ("")⟩
      ∈ (V1.simulateAdvancedDetection ("f.mp4") []).1.detected_objects := by
    rw [hstep, List.headD_cons]
    exact List.mem_cons_self _ _
  exact (((c4_confidence_bands ("f.mp4") [] hval).1) _ hmem).1

/-- C1 counterexample: on the valid (empty) draw stream every generated
`simulateAdvancedProcessing` bounding box has `width = 10`, so the claimed
frame-relative invariant `x + width ≤ 1` fails on the raw fields. -/
theorem c1_bbox_exceeds_unit :
    ∃ d ∈ (V2.simulateAdvancedProcessing ("f.mp4") []).1.detections,
      ¬(d.x + d.width ≤ 1 ∧ d.y + d.height ≤ 1) := by
  rw [V2.simulate_dets_eq]
  refine ⟨(V2.genDetection ([] : RandStream)).1, ?_, ?_⟩
  · have hstep : (V2.genDetections
        ((⌊([] : RandStream).headD 0 * 4⌋).toNat + 2) (([] : RandStream).tail)).1
        = (V2.genDetection ([] : RandStream)).1
          :: (V2.genDetections ((⌊([] : RandStream).headD 0 * 4⌋).toNat + 1)
              (V2.genDetection ([] : RandStream)).2).1 := rfl
    rw [hstep]
    exact List.mem_cons_self _ _
  · intro hcon
    have hx : (V2.genDetection ([] : RandStream)).1.x
        + (V2.genDetection ([] : RandStream)).1.width
        = ((0 : ℚ) * (7/10) * 100) + ((0 * (2/10) + 1/10) * 100) := rfl
    rw [hx] at hcon
    have := hcon.1
    norm_num at this

/-- C1 (amended): bounding-box fields are non-negative but are not fractions
in `[0, 1]`: `simulateAdvancedProcessing` stores percentages with
`x + width ≤ 100` and `y + height ≤ 100`, and `simulateAdvancedDetection`
stores pixels inside a 640×480 frame; after dividing by the respective frame
scale the claimed invariant `x + width ≤ 1`, `y + height ≤ 1` holds. -/
theorem c1_bbox_frame_relative_scaled (fileName : String) (s : RandStream)
    (h : ValidStream s) :
    (∀ d ∈ (V2.simulateAdvancedProcessing fileName s).1.detections,
       0 ≤ d.x ∧ 0 ≤ d.y ∧ 0 ≤ d.width ∧ 0 ≤ d.height ∧
       d.x + d.width ≤ 100 ∧ d.y + d.height ≤ 100 ∧
       d.x / 100 + d.width / 100 ≤ 1 ∧ d.y / 100 + d.height / 100 ≤ 1) ∧
    (∀ o ∈ (V1.simulateAdvancedDetection fileName s).1.detected_objects,
       0 ≤ o.bbox.x ∧ 0 ≤ o.bbox.y ∧ 0 ≤ o.bbox.width ∧ 0 ≤ o.bbox.height ∧
       o.bbox.x + o.bbox.width ≤ 640 ∧ o.bbox.y + o.bbox.height ≤ 480 ∧
       o.bbox.x / 640 + o.bbox.width / 640 ≤ 1 ∧
       o.bbox.y / 480 + o.bbox.height / 480 ≤ 1) := by
  constructor
  · intro d hd
    rw [V2.simulate_dets_eq] at hd
    refine V2.genDetections_mem
      (fun d => 0 ≤ d.x ∧ 0 ≤ d.y ∧ 0 ≤ d.width ∧ 0 ≤ d.height ∧
        d.x + d.width ≤ 100 ∧ d.y + d.height ≤ 100 ∧
        d.x / 100 + d.width / 100 ≤ 1 ∧ d.y / 100 + d.height / 100 ≤ 1)
      (fun s hs => ?_) _ _ (validStream_tail s h) d hd
    have hb := V2.genDetection_bounds s hs
    obtain ⟨_, ⟨hx0, hx1⟩, ⟨hy0, hy1⟩, ⟨hw0, hw1⟩, ⟨hh0, hh1⟩⟩ := hb
    refine ⟨hx0, hy0, by linarith, by linarith, by linarith, by linarith, ?_, ?_⟩
    · have : (V2.genDetection s).1.x + (V2.genDetection s).1.width ≤ 100 := by linarith
      linarith
    · have : (V2.genDetection s).1.y + (V2.genDetection s).1.height ≤ 100 := by linarith
      linarith
  · intro o ho
    rw [V1.simulate_objects_eq] at ho
    refine V1.genObjects_mem
      (fun o => 0 ≤ o.bbox.x ∧ 0 ≤ o.bbox.y ∧ 0 ≤ o.bbox.width ∧ 0 ≤ o.bbox.height ∧
        o.bbox.x + o.bbox.width ≤ 640 ∧ o.bbox.y + o.bbox.height ≤ 480 ∧
        o.bbox.x / 640 + o.bbox.width / 640 ≤ 1 ∧
        o.bbox.y / 480 + o.bbox.height / 480 ≤ 1)
      (fun i s hs => ?_) _ 0 _ (validStream_tail s h) o ho
    have hb := V1.genObject_bounds i s hs
    obtain ⟨_, ⟨hx0, hx1⟩, ⟨hy0, hy1⟩, ⟨hw0, hw1⟩, ⟨hh0, hh1⟩⟩ := hb
    refine ⟨hx0, hy0, by linarith, by linarith, by linarith, by linarith, ?_, ?_⟩
    · have : (V1.genObject i s).1.bbox.x + (V1.genObject i s).1.bbox.width ≤ 640 := by
        linarith
      linarith
    · have : (V1.genObject i s).1.bbox.y + (V1.genObject i s).1.bbox.height ≤ 480 := by
        linarith
      linarith

/-- Witness for C1 on the valid (empty) draw stream: the first generated
percentage box satisfies the amended bound `x + width ≤ 100`. -/
theorem c1_bbox_frame_relative_scaled_witness :
    ValidStream [] ∧
    ((V2.simulateAdvancedProcessing ("f.mp4") []).1.detections.headD
        ⟨(""), 0, 0, 0, 0, 0⟩).x
      + ((V2.simulateAdvancedProcessing ("f.mp4") []).1.detections.headD
        ⟨(""), 0, 0, 0, 0, 0⟩).width ≤ 100 := by
  have hval : ValidStream ([] : RandStream) := fun q hq => absurd hq (List.not_mem_nil q)
  refine ⟨hval, ?_⟩
  have hstep : (V2.simulateAdvancedProcessing ("f.mp4") []).1.detections
      = (V2.genDetection ([] : RandStream)).1
        :: (V2.genDetections ((⌊([] : RandStream).headD 0 * 4⌋).toNat + 1)
            (V2.genDetection ([] : RandStream)).2).1 := rfl
  have hmem : (V2.simulateAdvancedProcessing ("f.mp4") []).1.detections.headD
      ⟨(""), 0, 0, 0, 0, 0⟩
      ∈ (V2.simulateAdvancedProcessing ("f.mp4") []).1.detections := by
    rw [hstep, List.headD_cons]
    exact List.mem_cons_self _ _
  exact ((((((c1_bbox_frame_relative_scaled ("f.mp4") [] hval).1) _ hmem).2).2).2).2.1

/-- String append acts as list append on the character data. -/
theorem strData_append (a b : String) : (a ++ b).data = a.data ++ b.data := rfl

/-- The word `"Detected"` occurs in every second-revision description. -/
theorem v2_description_has_Detected (dets : List V2.DetectionResult) (qv : ℚ) :
    Speech.strHas ("Detected") (V2.buildDescription2 dets qv) = true := by
  unfold Speech.strHas V2.buildDescription2
  have hsplit : ("🔍 VISION ANALYSIS COMPLETE: Detected " : String).data
      = ("🔍 VISION ANALYSIS COMPLETE: ").data ++ (("Detected").data ++ (" ").data) := rfl
  simp only [strData_append, hsplit, List.append_assoc]
  exact Speech.listHas_of_eq_append (("🔍 VISION ANALYSIS COMPLETE: ").data) _ rfl

namespace Speech

theorem listHas_nil_needle (l : List Char) : listHas [] l = true := by
  cases l with
  | nil => rfl
  | cons c rest => simp [listHas, listStarts]

theorem listStarts_append_right {n h : List Char} (t : List Char)
    (hs : listStarts n h = true) : listStarts n (h ++ t) = true := by
  induction n generalizing h with
  | nil => simp [listStarts]
  | cons a as ih =>
    cases h with
    | nil => simp [listStarts] at hs
    | cons b bs =>
      simp only [listStarts, Bool.and_eq_true, beq_iff_eq] at hs
      simp only [List.cons_append, listStarts, Bool.and_eq_true, beq_iff_eq]
      exact ⟨hs.1, ih hs.2⟩

theorem listHas_append_right {n b : List Char} (c : List Char)
    (hb : listHas n b = true) : listHas n (b ++ c) = true := by
  induction b with
  | nil =>
    have : n = [] := by
      cases n with
      | nil => rfl
      | cons a as => simp [listHas] at hb
    subst this
    exact listHas_nil_needle c
  | cons x xs ih =>
    simp only [listHas, Bool.or_eq_true] at hb
    rcases hb with hb | hb
    · have hst : listStarts n (x :: (xs ++ c)) = true := by
        have := listStarts_append_right c hb
        simpa using this
      rw [List.cons_append]
      simp [listHas, hst]
    · rw [List.cons_append]
      simp [listHas, ih hb]

end Speech

/-- The layout of every second-revision description: a fixed prelude, the
count, the comma-joined per-detection listing, and the verdict suffix. -/
theorem v2_description_split (dets : List V2.DetectionResult) (qv : ℚ) :
    (V2.buildDescription2 dets qv).data
      = (("🔍 VISION ANALYSIS COMPLETE: Detected ").data
          ++ ((toString dets.length).data ++ (" objects - ").data))
        ++ ((V1.joinSep (", ") (V2.summaryEntries dets)).data
          ++ ((". Navigation path is ").data
            ++ ((if qv > 1/2 then ("CLEAR") else ("REQUIRES CAUTION")).data
              ++ (".").data))) := by
  simp [V2.buildDescription2, strData_append, List.append_assoc]

/-- Every generated category name occurs in the second-revision description. -/
theorem v2_description_has_category (dets : List V2.DetectionResult) (qv : ℚ)
    (d : V2.DetectionResult) (hd : d ∈ dets) :
    Speech.strHas d.object (V2.buildDescription2 dets qv) = true := by
  obtain ⟨p, t, hpt⟩ := V1.joinSep_mem_split (", ") (V2.summaryEntries dets)
    (V2.summaryEntry d) (List.mem_map_of_mem _ hd)
  have hentry : (V2.summaryEntry d).data
      = d.object.data ++ ((" (").data
        ++ ((toFixed1 (d.confidence * 100)).data ++ ("%)").data)) := by
    simp [V2.summaryEntry, strData_append, List.append_assoc]
  have hjoin : Speech.listHas d.object.data
      ((V1.joinSep (", ") (V2.summaryEntries dets)).data) = true := by
    refine Speech.listHas_of_eq_append p
      ((" (").data ++ ((toFixed1 (d.confidence * 100)).data ++ (("%)").data ++ t))) ?_
    rw [hpt, hentry]
    simp [List.append_assoc]
  show Speech.listHas d.object.data (V2.buildDescription2 dets qv).data = true
  rw [v2_description_split]
  exact Speech.listHas_append_left _ (Speech.listHas_append_right _ hjoin)

/-- The word `"detected"` survives in any first-revision description shape:
the base string starts with a non-whitespace character, so the left trim is
the identity, and the right trim stays inside the suffix that follows the
literal `" detected. "`. -/
theorem strHas_detected_trim (J c1 c2 c3 : String) :
    Speech.strHas ("detected")
      (V1.jsTrim ("Detection complete: " ++ J ++ " detected. " ++ c1 ++ c2 ++ c3))
      = true := by
  unfold Speech.strHas V1.jsTrim
  have hbase : ("Detection complete: " ++ J ++ " detected. " ++ c1 ++ c2 ++ c3 : String).data
      = ('D' :: (("etection complete: ").data ++ (J.data ++ (" detected").data)))
        ++ ((". ").data ++ (c1.data ++ (c2.data ++ c3.data))) := by
    simp [strData_append, List.append_assoc]
  rw [hbase, List.cons_append]
  rw [V1.jsTrimList_eq_of_head _ _ (by decide)]
  rw [← List.cons_append]
  have hbne : (((". ").data ++ (c1.data ++ (c2.data ++ c3.data))).reverse.dropWhile
      Char.isWhitespace).reverse ≠ [] := by
    refine V1.rtrimWs_ne_nil (c := '.') (by decide) ?_
    simp [(by rfl : (". ").data = ['.', ' '])]
  rw [V1.rtrimWs_append _ _ hbne]
  refine Speech.listHas_of_eq_append
    ('D' :: (("etection complete: ").data ++ (J.data ++ [' '])))
    (((((". ").data ++ (c1.data ++ (c2.data ++ c3.data))).reverse.dropWhile
      Char.isWhitespace).reverse)) ?_
  have hdet : ((" detected").data : List Char) = ' ' :: ("detected").data := rfl
  rw [hdet]
  simp [List.append_assoc]

/-- Every first-revision description contains the word `"detected"`. -/
theorem v1_buildDescription_has_detected (objs : List V1.DetectedObject) :
    Speech.strHas ("detected") (V1.buildDescription objs) = true :=
  strHas_detected_trim _ _ _ _

/-- The description of a first-revision result, unfolded to the builder. -/
theorem V1.simulateDetection_desc_eq (fileName : String) (s : RandStream) :
    (V1.simulateAdvancedDetection fileName s).1.description_text
      = V1.buildDescription
          (V1.genObjects 0 ((⌊s.headD 0 * 5⌋).toNat + 2) s.tail).1 := rfl

/-- The description of a second-revision result, unfolded to the builder. -/
theorem V2.simulateProcessing_desc_eq (fileName : String) (s : RandStream) :
    (V2.simulateAdvancedProcessing fileName s).1.description_text
      = V2.buildDescription2
          (V2.genDetections ((⌊s.headD 0 * 4⌋).toNat + 2) s.tail).1
          ((V2.genDetections ((⌊s.headD 0 * 4⌋).toNat + 2) s.tail).2.headD 0) := rfl

/-- C5 (amended): every completed run's summary contains the word
`"detected"` (capitalized `"Detected"` in the second revision); the second
revision lists every generated category at least once — the full ordered
comma-joined listing of the detections is embedded verbatim, so categories
first appear in generation order.  (The first revision, by contrast, lists
only counted car/bike/pedestrian/zebra-crossing groups; see the
counterexample where a detected truck goes unlisted.) -/
theorem c5_summary_lists_categories (fileName : String) (s : RandStream) :
    Speech.strHas ("detected")
      (V1.simulateAdvancedDetection fileName s).1.description_text = true ∧
    Speech.strHas ("Detected")
      (V2.simulateAdvancedProcessing fileName s).1.description_text = true ∧
    (∀ d ∈ (V2.simulateAdvancedProcessing fileName s).1.detections,
      Speech.strHas d.object
        (V2.simulateAdvancedProcessing fileName s).1.description_text = true) ∧
    (∃ pre post, ((V2.simulateAdvancedProcessing fileName s).1.description_text).data
      = pre ++ ((V1.joinSep (", ")
          (V2.summaryEntries (V2.simulateAdvancedProcessing fileName s).1.detections)).data
        ++ post)) := by
  refine ⟨?_, ?_, ?_, ?_⟩
  · rw [V1.simulateDetection_desc_eq]
    exact v1_buildDescription_has_detected _
  · rw [V2.simulateProcessing_desc_eq]
    exact v2_description_has_Detected _ _
  · intro d hd
    rw [V2.simulate_dets_eq] at hd
    rw [V2.simulateProcessing_desc_eq]
    exact v2_description_has_category _ _ d hd
  · rw [V2.simulateProcessing_desc_eq, V2.simulate_dets_eq]
    exact ⟨_, _, v2_description_split _ _⟩

/-- C5 counterexample: on the valid draw stream below the run generates two
trucks, yet the summary is `"Detection complete:  detected."` — the word
truck never appears, refuting the claim that every generated category is
listed.  (The first revision only ever lists car, bike, pedestrian and zebra
crossing counts.) -/
theorem c5_truck_not_listed :
    (∃ o ∈ (V1.simulateAdvancedDetection ("f.mp4")
        [0, 3/4, 0, 0, 0, 0, 0, 0, 3/4, 0, 0, 0, 0, 0, 0]).1.detected_objects,
      o.type = V1.ObjType.truck) ∧
    Speech.strHas ("truck")
      (V1.simulateAdvancedDetection ("f.mp4")
        [0, 3/4, 0, 0, 0, 0, 0, 0, 3/4, 0, 0, 0, 0, 0, 0]).1.description_text
      = false := by
  have hcount : ((⌊(([0, 3/4, 0, 0, 0, 0, 0, 0, 3/4, 0, 0, 0, 0, 0, 0] :
      RandStream)).headD 0 * 5⌋).toNat + 2) = 2 := by
    norm_num
  have hobjs : (V1.simulateAdvancedDetection ("f.mp4")
      [0, 3/4, 0, 0, 0, 0, 0, 0, 3/4, 0, 0, 0, 0, 0, 0]).1.detected_objects
      = [(V1.genObject 0 [3/4, 0, 0, 0, 0, 0, 0, 3/4, 0, 0, 0, 0, 0, 0]).1,
         (V1.genObject 1 [3/4, 0, 0, 0, 0, 0, 0]).1] := by
    rw [V1.simulate_objects_eq, hcount]
    rfl
  have t1 : (V1.genObject 0 [3/4, 0, 0, 0, 0, 0, 0, 3/4, 0, 0, 0, 0, 0, 0]).1.type
      = V1.ObjType.truck := by
    show V1.objectTypes.getD (⌊(3/4 : ℚ) * 8⌋).toNat V1.ObjType.car = V1.ObjType.truck
    rw [floor_eval ((3/4 : ℚ) * 8) 6 (by norm_num) (by norm_num)]
    rfl
  have t2 : (V1.genObject 1 [3/4, 0, 0, 0, 0, 0, 0]).1.type = V1.ObjType.truck := by
    show V1.objectTypes.getD (⌊(3/4 : ℚ) * 8⌋).toNat V1.ObjType.car = V1.ObjType.truck
    rw [floor_eval ((3/4 : ℚ) * 8) 6 (by norm_num) (by norm_num)]
    rfl
  constructor
  · refine ⟨(V1.genObject 0 [3/4, 0, 0, 0, 0, 0, 0, 3/4, 0, 0, 0, 0, 0, 0]).1, ?_, t1⟩
    rw [hobjs]
    exact List.mem_cons_self _ _
  · have hdesc : (V1.simulateAdvancedDetection ("f.mp4")
        [0, 3/4, 0, 0, 0, 0, 0, 0, 3/4, 0, 0, 0, 0, 0, 0]).1.description_text
        = V1.buildDescription
            [(V1.genObject 0 [3/4, 0, 0, 0, 0, 0, 0, 3/4, 0, 0, 0, 0, 0, 0]).1,
             (V1.genObject 1 [3/4, 0, 0, 0, 0, 0, 0]).1] := by
      rw [V1.simulateDetection_desc_eq, hcount]
      rfl
    rw [hdesc]
    unfold V1.buildDescription
    simp only [List.filter_cons, List.filter_nil, t1, t2]
    norm_num
    decide
